import Mathlib

set_option maxRecDepth 8000

/-!
Shallow embedding of `src/allocator.c` (a BiBOP-style segregated size-class
allocator) and verification of its specification claims.

Modelling conventions:
* Addresses and sizes are natural numbers; `NULL` is the address 0 and
  `MAP_FAILED` (C's `(void*)-1`) is `2^64 - 1`.
* The page source (`mmap`) is modelled by a monotone counter `fresh` holding
  the next page-aligned address it will hand out; a Boolean `ok` parameter of
  `xxmalloc` says whether the mapping request issued during that call
  succeeds.  A zero-length request fails (POSIX `EINVAL`).
* An allocator-owned size-classed page is a `PageRec` stored in an
  association list keyed by the page base address; the intrusive in-page
  freelist is abstracted to the list of block addresses it threads through.
* Memory the allocator never wrote a header to (large objects, foreign
  memory) is absent from the association list; reading the magic number
  there yields a non-magic value (mmap'ed pages are zero-filled).
* Dereferencing `NULL` or `MAP_FAILED` is a memory fault; `xxmalloc` returns
  an `MResult` distinguishing a returned pointer, `exit(2)`, the `for(;;){}`
  hang of the reentrancy guard, and a fault.
-/

namespace Alloc

/-! ### Constants from allocator.c -/

def MIN_MALLOC_SIZE : Nat := 16

def PAGE_SIZE : Nat := 0x1000

/-- `sizeof(Header)` on LP64: `int` (4 bytes + 4 padding), `size_t` (8),
`Node*` (8), `struct header*` (8). -/
def HEADER_SIZE : Nat := 32

/-- The validity marker `0xF00DFACE` written into every size-classed page. -/
def MAGIC : Nat := 0xF00DFACE

def NULL : Nat := 0

/-- `2^64`, the size_t modulus. -/
def W64 : Nat := 2 ^ 64

/-- `MAP_FAILED`, i.e. `(void*)-1`, viewed as an unsigned address. -/
def MAP_FAILED : Nat := W64 - 1

/-- Address of the static 1024-byte `emergency_block` buffer: any fixed
non-null address that is not page-aligned (static data is never a page the
allocator owns). -/
def emergency_block : Nat := 1024

/-- `ROUND_UP(x,y)` from allocator.c. -/
def ROUND_UP (x y : Nat) : Nat := if x % y = 0 then x else x + (y - x % y)

/-- `ROUND_DOWN(x,y)` from allocator.c. -/
def ROUND_DOWN (x y : Nat) : Nat := x - x % y

/-! ### The GCC builtins used by the size-class computation -/

/-- Trailing-zero count, fuelled (the builtin is only applied to nonzero
values in range). -/
def ctzAux : Nat → Nat → Nat
  | 0, _ => 0
  | fuel + 1, n => if n % 2 = 1 then 0 else ctzAux fuel (n / 2) + 1

/-- `__builtin_ctz`. -/
def ctz (n : Nat) : Nat := ctzAux 64 n

/-- Number of significant bits of `n` (0 for 0). -/
def bitsAux : Nat → Nat → Nat
  | 0, _ => 0
  | fuel + 1, n => if n = 0 then 0 else bitsAux fuel (n / 2) + 1

def bits (n : Nat) : Nat := bitsAux 64 n

/-- `__builtin_clzl` on a 64-bit word. -/
def clz64 (n : Nat) : Nat := 64 - bits n

/-- The `log2` computed by lines 91-100 of allocator.c: `ctz size` when
`size` is a power of two, `64 - clzl size` (one above the floor) otherwise. -/
def computeLog2 (size : Nat) : Nat :=
  if clz64 size + ctz size + 1 < 64 then 64 - clz64 size else ctz size

/-! ### Allocator state -/

/-- The `Header` at the start of every owned size-classed page, with the
intrusive freelist abstracted to the list of block addresses it links. -/
structure PageRec where
  magicNum : Nat
  size : Nat
  freelist : List Nat
  next : Option Nat
deriving DecidableEq

/-- Global allocator state: the 8-entry `blockPtrs` table, the owned pages
(keyed by page base address), the two guard flags, and the page source's
next fresh address. -/
structure AllocState where
  blockPtrs : List (Option Nat)
  pages : List (Nat × PageRec)
  in_malloc : Bool
  use_emergency_block : Bool
  fresh : Nat
deriving DecidableEq

/-- Read the page record stored at base address `a` (first binding wins). -/
def getPage : List (Nat × PageRec) → Nat → Option PageRec
  | [], _ => none
  | (b, r) :: rest, a => if a = b then some r else getPage rest a

/-- Overwrite the page record stored at base address `a`. -/
def setPage : List (Nat × PageRec) → Nat → PageRec → List (Nat × PageRec)
  | [], _, _ => []
  | (b, r0) :: rest, a, r =>
    if a = b then (b, r) :: rest else (b, r0) :: setPage rest a r

/-- The freelist-construction loop of lines 131-136: starting at `off` and
stepping by `size` while below `PAGE_SIZE`, push `base + off` on the front
of the list.  Fuel bounds the iteration count (PAGE_SIZE is always enough
for a positive `size`). -/
def buildFreelist : Nat → Nat → Nat → Nat → List Nat → List Nat
  | 0, _, _, _, acc => acc
  | fuel + 1, base, off, size, acc =>
    if off < PAGE_SIZE then
      buildFreelist fuel base (off + size) size ((base + off) :: acc)
    else acc

/-- The header written by the page-bootstrap code (lines 118-136): magic,
block size, the freelist built over the page tail, and a link to the class's
previous page. -/
def bootstrapPage (base size : Nat) (prior : Option Nat) : PageRec :=
  { magicNum := MAGIC
    size := size
    freelist := buildFreelist PAGE_SIZE base (ROUND_UP HEADER_SIZE size) size []
    next := prior }

/-- Outcome of a call to `xxmalloc`. -/
inductive MResult where
  | ptr (a : Nat)
  | fatalExit (code : Nat)
  | loopForever
  | fault
deriving DecidableEq

/-- One `mmap` request of `len` bytes: a fresh page-source address on
success, `MAP_FAILED` on failure (a zero-length request always fails). -/
def mmapResult (ok : Bool) (len : Nat) (s : AllocState) : Nat × AllocState :=
  if ok = true ∧ len ≠ 0 then (s.fresh, { s with fresh := s.fresh + len })
  else (MAP_FAILED, s)

/-- Lines 82-88: the large-object path.  `ROUND_UP` is size_t arithmetic,
hence the reduction mod `2^64`; the mmap result is returned unchecked. -/
def largePath (ok : Bool) (size1 : Nat) (s : AllocState) : MResult × AllocState :=
  let len := ROUND_UP size1 PAGE_SIZE % W64
  let r := mmapResult ok len s
  (MResult.ptr r.1, { r.2 with in_malloc := false })

/-- The condition of line 110:
`blockPtrs[index] == NULL || blockPtrs[index]->freelist == NULL`.
A table entry pointing to an address with no header is never reached from
well-formed states (`blockPtrs` only ever holds bootstrapped pages). -/
def needsBootstrap (s : AllocState) (index : Nat) : Bool :=
  match s.blockPtrs.getD index none with
  | none => true
  | some a =>
    match getPage s.pages a with
    | some pg => pg.freelist.isEmpty
    | none => true

/-- Lines 116-136: record the freshly bootstrapped page at `base` and make
it the head of class `index` (its `next` is the previous table entry). -/
def addPage (s : AllocState) (base size index : Nat) : AllocState :=
  { s with
    pages := (base, bootstrapPage base size (s.blockPtrs.getD index none)) :: s.pages
    blockPtrs := s.blockPtrs.set index (some base) }

/-- Lines 139-157: pop the head of the class's freelist, run the (late)
`MAP_FAILED` check, clear `in_malloc` and return the block.  Popping an
empty freelist dereferences `NULL` (a fault); so does a dangling table
entry.  Neither is reachable from well-formed states. -/
def popBlock (s : AllocState) (index : Nat) : MResult × AllocState :=
  match s.blockPtrs.getD index none with
  | none => (MResult.fault, s)
  | some a =>
    match getPage s.pages a with
    | none => (MResult.fault, s)
    | some pg =>
      match pg.freelist with
      | [] => (MResult.fault, s)
      | q :: rest =>
        let s1 : AllocState :=
          { s with pages := setPage s.pages a { pg with freelist := rest } }
        if q = MAP_FAILED then
          (MResult.fatalExit 2, { s1 with use_emergency_block := true })
        else
          (MResult.ptr q, { s1 with in_malloc := false })

/-- Lines 91-157: the size-class path on the already-clamped size.  When a
bootstrap is needed and the page mapping fails, the header store of line 119
writes through `MAP_FAILED`: a fault. -/
def smallPath (ok : Bool) (size1 : Nat) (s : AllocState) : MResult × AllocState :=
  let index := computeLog2 size1 - ctz MIN_MALLOC_SIZE
  let size := 2 ^ computeLog2 size1
  if needsBootstrap s index then
    let r := mmapResult ok PAGE_SIZE s
    if r.1 = MAP_FAILED then (MResult.fault, r.2)
    else popBlock (addPage r.2 r.1 size index) index
  else popBlock s index

/-- `xxmalloc` (lines 57-158).  `ok` says whether the page source would
satisfy a mapping request issued during this call. -/
def xxmalloc (ok : Bool) (size0 : Nat) (s : AllocState) : MResult × AllocState :=
  if size0 = 0 then (MResult.ptr NULL, s)
  else if s.use_emergency_block then (MResult.ptr emergency_block, s)
  else if s.in_malloc then (MResult.loopForever, { s with use_emergency_block := true })
  else
    let s1 : AllocState := { s with in_malloc := true }
    let size1 := if size0 < MIN_MALLOC_SIZE then MIN_MALLOC_SIZE else size0
    if 2048 < size1 then largePath ok size1 s1 else smallPath ok size1 s1

/-- `xxmalloc_usable_size` (lines 167-177). -/
def xxmalloc_usable_size (s : AllocState) (ptr : Nat) : Nat :=
  if ptr = NULL then 0
  else
    match getPage s.pages (ROUND_DOWN ptr PAGE_SIZE) with
    | some pg => if pg.magicNum ≠ MAGIC then PAGE_SIZE else pg.size
    | none => PAGE_SIZE

/-- `xxfree` (lines 185-203). -/
def xxfree (s : AllocState) (ptr : Nat) : AllocState :=
  if ptr = NULL then s
  else
    let a := ROUND_DOWN ptr PAGE_SIZE
    let size := xxmalloc_usable_size s ptr
    match getPage s.pages a with
    | none => s
    | some pg =>
      if pg.magicNum ≠ MAGIC then s
      else
        { s with
          pages := setPage s.pages a
            { pg with freelist := ROUND_DOWN ptr size :: pg.freelist } }

/-- The state at process start: empty table, no pages, flags clear, page
source poised at the first page-aligned address. -/
def initState : AllocState :=
  { blockPtrs := List.replicate 8 none
    pages := []
    in_malloc := false
    use_emergency_block := false
    fresh := PAGE_SIZE }

/-! ### Well-formedness invariant -/

/-- Invariant of one owned page at base `a`: page-aligned non-null base
below the page-source frontier, the magic marker, a block size that is a
size-class size, and freelist nodes that are `size`-aligned addresses inside
the page and at or beyond the header region rounded up to a block
boundary. -/
def PageWF (fresh a : Nat) (pg : PageRec) : Prop :=
  a ≠ 0 ∧ a % PAGE_SIZE = 0 ∧ a + PAGE_SIZE ≤ fresh ∧
  pg.magicNum = MAGIC ∧
  16 ≤ pg.size ∧ pg.size ≤ 2048 ∧ pg.size ∣ PAGE_SIZE ∧
  ∀ q ∈ pg.freelist,
    q % pg.size = 0 ∧ a + ROUND_UP HEADER_SIZE pg.size ≤ q ∧ q < a + PAGE_SIZE

/-- Invariant of the allocator state: the table has its 8 slots, the page
source is at a positive page-aligned address, every recorded page is
well-formed, and every table entry points at a recorded page of its class's
block size. -/
def StateWF (s : AllocState) : Prop :=
  s.blockPtrs.length = 8 ∧
  s.fresh % PAGE_SIZE = 0 ∧ 0 < s.fresh ∧
  (∀ e ∈ s.pages, PageWF s.fresh e.1 e.2) ∧
  ∀ i a, s.blockPtrs.getD i none = some a →
    ∃ pg, getPage s.pages a = some pg ∧ pg.size = 2 ^ (i + 4)

/-- The freelist invariant as the specification states it: every node of any
owned page's freelist lies at an offset from the page base that is a
multiple of the block size and outside the header region. -/
def FreelistInv (s : AllocState) : Prop :=
  ∀ e ∈ s.pages, ∀ q ∈ e.2.freelist,
    e.1 ≤ q ∧ (q - e.1) % e.2.size = 0 ∧
    ROUND_UP HEADER_SIZE e.2.size ≤ q - e.1 ∧ q - e.1 < PAGE_SIZE

/-! ### Arithmetic lemmas about ROUND_UP and ROUND_DOWN -/

lemma ROUND_DOWN_eq (x m : Nat) : ROUND_DOWN x m = m * (x / m) := by
  have h := Nat.div_add_mod x m
  unfold ROUND_DOWN
  omega

lemma ROUND_DOWN_mod (x m : Nat) : ROUND_DOWN x m % m = 0 := by
  rw [ROUND_DOWN_eq, Nat.mul_mod_right]

lemma ROUND_DOWN_le (x m : Nat) : ROUND_DOWN x m ≤ x := by
  unfold ROUND_DOWN; omega

lemma lt_ROUND_DOWN_add (x m : Nat) (hm : 0 < m) : x < ROUND_DOWN x m + m := by
  have := Nat.mod_lt x hm
  unfold ROUND_DOWN
  omega

lemma ROUND_DOWN_eq_self (x m : Nat) (h : x % m = 0) : ROUND_DOWN x m = x := by
  unfold ROUND_DOWN; omega

lemma le_ROUND_DOWN (b x m : Nat) (hm : 0 < m) (hdvd : m ∣ b) (h : b ≤ x) :
    b ≤ ROUND_DOWN x m := by
  rw [ROUND_DOWN_eq]
  obtain ⟨k, rfl⟩ := hdvd
  have hk : k ≤ x / m := by
    rw [Nat.le_div_iff_mul_le hm, Nat.mul_comm]
    exact h
  exact Nat.mul_le_mul_left m hk

/-- A value between two consecutive multiples of `m` rounds down to the
lower one. -/
lemma ROUND_DOWN_base (m a q : Nat) (hm : 0 < m) (ha : m ∣ a)
    (h1 : a ≤ q) (h2 : q < a + m) : ROUND_DOWN q m = a := by
  have hle : a ≤ ROUND_DOWN q m := le_ROUND_DOWN a q m hm ha h1
  have hmod := ROUND_DOWN_mod q m
  have hlt : ROUND_DOWN q m < a + m := lt_of_le_of_lt (ROUND_DOWN_le q m) h2
  obtain ⟨ka, rfl⟩ := ha
  rw [ROUND_DOWN_eq] at *
  have : ka ≤ q / m := Nat.le_of_mul_le_mul_left hle hm
  have : q / m < ka + 1 := by
    by_contra hcon
    push_neg at hcon
    have : m * (ka + 1) ≤ m * (q / m) := Nat.mul_le_mul_left m hcon
    rw [Nat.mul_succ] at this
    omega
  have : q / m = ka := by omega
  rw [this]

lemma le_ROUND_UP (x m : Nat) : x ≤ ROUND_UP x m := by
  unfold ROUND_UP; split <;> omega

lemma ROUND_UP_mod (x m : Nat) (hm : 0 < m) : ROUND_UP x m % m = 0 := by
  unfold ROUND_UP
  split
  · assumption
  · have h1 : x % m < m := Nat.mod_lt x hm
    have h2 : x + (m - x % m) = m * (x / m + 1) := by
      rw [Nat.mul_succ]
      have := Nat.div_add_mod x m
      omega
    rw [h2, Nat.mul_mod_right]

lemma ROUND_UP_lt (x m : Nat) (hm : 0 < m) : ROUND_UP x m < x + m := by
  unfold ROUND_UP
  split
  · omega
  · have h1 : x % m < m := Nat.mod_lt x hm
    omega

/-- `ROUND_UP x m` never overshoots a multiple of `m` that is at least `x`. -/
lemma ROUND_UP_le (x c m : Nat) (hm : 0 < m) (hc : m ∣ c) (h : x ≤ c) :
    ROUND_UP x m ≤ c := by
  unfold ROUND_UP
  split
  · exact h
  · obtain ⟨k, rfl⟩ := hc
    have h1 : x % m < m := Nat.mod_lt x hm
    have h2 := Nat.div_add_mod x m
    have hx : x < m * k := by
      rcases Nat.lt_or_ge x (m * k) with h' | h'
      · exact h'
      · exfalso
        have : x = m * k := Nat.le_antisymm h h'
        subst this
        simp [Nat.mul_mod_right] at *
    have hdiv : x / m < k := by
      rw [Nat.div_lt_iff_lt_mul hm, Nat.mul_comm k m]
      exact hx
    calc x + (m - x % m) = m * (x / m + 1) := by rw [Nat.mul_succ]; omega
    _ ≤ m * k := Nat.mul_le_mul_left m hdiv

/-! ### Characterization of the clz/ctz-based size computation -/

lemma bitsAux_zero (fuel : Nat) : bitsAux fuel 0 = 0 := by
  cases fuel <;> simp [bitsAux]

lemma bitsAux_spec (fuel : Nat) : ∀ n, 0 < n → n < 2 ^ fuel →
    2 ^ (bitsAux fuel n - 1) ≤ n ∧ n < 2 ^ bitsAux fuel n ∧ 0 < bitsAux fuel n := by
  induction fuel with
  | zero => intro n h0 hlt; simp at hlt; omega
  | succ fuel ih =>
    intro n h0 hlt
    rw [bitsAux, if_neg (by omega)]
    by_cases h1 : n = 1
    · subst h1
      simp [bitsAux_zero]
    · have h2 : 2 ≤ n := by omega
      have hpos : 0 < n / 2 := Nat.div_pos h2 (by omega)
      have hlt2 : n / 2 < 2 ^ fuel := by
        rw [Nat.div_lt_iff_lt_mul (by omega : (0:Nat) < 2)]
        calc n < 2 ^ (fuel + 1) := hlt
        _ = 2 ^ fuel * 2 := by ring
      obtain ⟨ha, hb, hc⟩ := ih (n / 2) hpos hlt2
      refine ⟨?_, ?_, by omega⟩
      · obtain ⟨b', hb'⟩ : ∃ b', bitsAux fuel (n / 2) = b' + 1 :=
          ⟨bitsAux fuel (n / 2) - 1, by omega⟩
        rw [hb'] at ha hb ⊢
        simp only [Nat.add_sub_cancel] at ha ⊢
        have h3 : 2 ^ (b' + 1) = 2 * 2 ^ b' := by ring
        have h5 := Nat.div_mul_le_self n 2
        omega
      · have h6 : 2 ^ (bitsAux fuel (n / 2) + 1) = 2 * 2 ^ bitsAux fuel (n / 2) := by
          ring
        omega

lemma ctzAux_spec (fuel : Nat) : ∀ n, 0 < n → n < 2 ^ fuel →
    2 ^ ctzAux fuel n ∣ n ∧ ¬ 2 ^ (ctzAux fuel n + 1) ∣ n := by
  induction fuel with
  | zero => intro n h0 hlt; simp at hlt; omega
  | succ fuel ih =>
    intro n h0 hlt
    rw [ctzAux]
    by_cases hodd : n % 2 = 1
    · rw [if_pos hodd]
      refine ⟨Nat.one_dvd n, ?_⟩
      rw [pow_one]
      intro hdvd
      obtain ⟨k, rfl⟩ := hdvd
      omega
    · rw [if_neg hodd]
      have heven : n % 2 = 0 := by omega
      have h2 : 2 ≤ n := by omega
      have hpos : 0 < n / 2 := Nat.div_pos h2 (by omega)
      have hlt2 : n / 2 < 2 ^ fuel := by
        rw [Nat.div_lt_iff_lt_mul (by omega : (0:Nat) < 2)]
        calc n < 2 ^ (fuel + 1) := hlt
        _ = 2 ^ fuel * 2 := by ring
      obtain ⟨ha, hb⟩ := ih (n / 2) hpos hlt2
      have hn2 : n = 2 * (n / 2) := by omega
      obtain ⟨c, hcdef⟩ : ∃ c, ctzAux fuel (n / 2) = c := ⟨_, rfl⟩
      rw [hcdef] at ha hb ⊢
      constructor
      · obtain ⟨k, hk⟩ := ha
        refine ⟨k, ?_⟩
        calc n = 2 * (n / 2) := hn2
        _ = 2 * (2 ^ c * k) := by rw [hk]
        _ = 2 ^ (c + 1) * k := by ring
      · intro hdvd
        apply hb
        obtain ⟨k, hk⟩ := hdvd
        refine ⟨k, ?_⟩
        have h8 : n = 2 * (2 ^ (c + 1) * k) := by
          rw [hk]; ring
        omega

lemma two_le_2048 : (2048 : Nat) < 2 ^ 64 := by norm_num

/-- The `log2` computed from the builtins: for `16 ≤ m ≤ 2048` it lies in
`[4, 11]` and `2 ^ log2` is the least power of two at least `m` (hence at
most `2 * m`). -/
lemma computeLog2_spec (m : Nat) (h16 : 16 ≤ m) (h2048 : m ≤ 2048) :
    4 ≤ computeLog2 m ∧ computeLog2 m ≤ 11 ∧
    m ≤ 2 ^ computeLog2 m ∧ 2 ^ computeLog2 m ≤ 2 * m := by
  have h0 : 0 < m := by omega
  have hlt : m < 2 ^ 64 := by omega
  obtain ⟨hb1, hb2, hb3⟩ := bitsAux_spec 64 m h0 hlt
  obtain ⟨ht1, ht2⟩ := ctzAux_spec 64 m h0 hlt
  obtain ⟨b, hbdef⟩ : ∃ b, bitsAux 64 m = b := ⟨_, rfl⟩
  obtain ⟨t, htdef⟩ : ∃ t, ctzAux 64 m = t := ⟨_, rfl⟩
  rw [hbdef] at hb1 hb2 hb3
  rw [htdef] at ht1 ht2
  have hble : b ≤ 12 := by
    by_contra h
    push_neg at h
    have h4 : (2:Nat) ^ 12 ≤ 2 ^ (b - 1) :=
      Nat.pow_le_pow_right (by omega) (by omega)
    have h5 : (2:Nat) ^ 12 ≤ m := le_trans h4 hb1
    norm_num at h5
    omega
  have hbge : 5 ≤ b := by
    by_contra h
    push_neg at h
    have h4 : (2:Nat) ^ b ≤ 2 ^ 4 := Nat.pow_le_pow_right (by omega) (by omega)
    have h5 : m < 2 ^ 4 := lt_of_lt_of_le hb2 h4
    norm_num at h5
    omega
  have htlt : t < b := by
    have h1 : 2 ^ t ≤ m := Nat.le_of_dvd h0 ht1
    have h2 : (2:Nat) ^ t < 2 ^ b := lt_of_le_of_lt h1 hb2
    exact (Nat.pow_lt_pow_iff_right (by omega)).mp h2
  have hclz : clz64 m = 64 - b := by
    unfold clz64 bits
    rw [hbdef]
  have hctz : ctz m = t := by
    unfold ctz
    rw [htdef]
  unfold computeLog2
  rw [hclz, hctz]
  by_cases hcase : t + 1 = b
  · have hcond : ¬ (64 - b + t + 1 < 64) := by omega
    rw [if_neg hcond]
    have hmeq : m = 2 ^ t := by
      obtain ⟨k, hk⟩ := ht1
      have hk2 : ¬ 2 ≤ k := by
        intro hk2
        have h5 : 2 ^ (t + 1) ≤ 2 ^ t * k := by
          rw [pow_succ]
          exact Nat.mul_le_mul_left _ hk2
        have h6 : 2 ^ b ≤ m := by
          rw [← hcase, hk]
          exact h5
        omega
      have hk0 : k ≠ 0 := by
        intro hk0
        rw [hk0, Nat.mul_zero] at hk
        omega
      have hk1 : k = 1 := by omega
      rw [hk, hk1, Nat.mul_one]
    refine ⟨?_, ?_, by omega, by omega⟩
    · by_contra h
      push_neg at h
      have h4 : (2:Nat) ^ t ≤ 2 ^ 3 := Nat.pow_le_pow_right (by omega) (by omega)
      norm_num at h4
      omega
    · by_contra h
      push_neg at h
      have h4 : (2:Nat) ^ 12 ≤ 2 ^ t := Nat.pow_le_pow_right (by omega) (by omega)
      have h5 : (2:Nat) ^ t ≤ m := by omega
      norm_num at h4
      omega
  · have hcond : 64 - b + t + 1 < 64 := by omega
    rw [if_pos hcond]
    have heq : 64 - (64 - b) = b := by omega
    rw [heq]
    have hpow : 2 ^ b = 2 * 2 ^ (b - 1) := by
      obtain ⟨b', hb'⟩ : ∃ b', b = b' + 1 := ⟨b - 1, by omega⟩
      rw [hb']
      simp only [Nat.add_sub_cancel]
      ring
    have hb11 : b ≤ 11 := by
      by_contra h
      push_neg at h
      have hbeq : b = 12 := by omega
      have hm1 : (2:Nat) ^ 11 ≤ m := by
        have h6 := hb1
        rw [hbeq] at h6
        norm_num at h6
        omega
      have hm2048 : m = 2048 := by
        norm_num at hm1
        omega
      apply ht2
      rw [hm2048]
      have h7 : t + 1 ≤ 11 := by omega
      have h8 : (2:Nat) ^ (t + 1) ∣ 2 ^ 11 := Nat.pow_dvd_pow 2 h7
      have h9 : (2048:Nat) = 2 ^ 11 := by norm_num
      rw [h9]
      exact h8
    exact ⟨by omega, hb11, by omega, by omega⟩

/-- Exact powers of two in class range map to themselves. -/
lemma computeLog2_pow (j : Nat) (h4 : 4 ≤ j) (h11 : j ≤ 11) :
    computeLog2 (2 ^ j) = j := by
  interval_cases j <;> decide

/-! ### Lemmas about the page map and the table -/

lemma getPage_mem {ps : List (Nat × PageRec)} {a : Nat} {pg : PageRec}
    (h : getPage ps a = some pg) : (a, pg) ∈ ps := by
  induction ps with
  | nil => simp [getPage] at h
  | cons e rest ih =>
    obtain ⟨b, r⟩ := e
    rw [getPage] at h
    by_cases hab : a = b
    · rw [if_pos hab] at h
      subst hab
      injection h with h
      subst h
      exact List.mem_cons_self _ _
    · rw [if_neg hab] at h
      exact List.mem_cons_of_mem _ (ih h)

lemma getPage_setPage_self {ps : List (Nat × PageRec)} {a : Nat} {pg : PageRec}
    (r : PageRec) (h : getPage ps a = some pg) :
    getPage (setPage ps a r) a = some r := by
  induction ps with
  | nil => simp [getPage] at h
  | cons e rest ih =>
    obtain ⟨b, r0⟩ := e
    rw [getPage] at h
    rw [setPage]
    by_cases hab : a = b
    · rw [if_pos hab, getPage, if_pos hab]
    · rw [if_neg hab] at h
      rw [if_neg hab, getPage, if_neg hab]
      exact ih h

lemma getPage_setPage_ne {ps : List (Nat × PageRec)} {a b : Nat} (r : PageRec)
    (h : b ≠ a) : getPage (setPage ps a r) b = getPage ps b := by
  induction ps with
  | nil => rfl
  | cons e rest ih =>
    obtain ⟨c, r0⟩ := e
    rw [setPage]
    by_cases hac : a = c
    · subst hac
      rw [if_pos rfl, getPage, getPage, if_neg h, if_neg h]
    · rw [if_neg hac, getPage, getPage]
      by_cases hbc : b = c
      · rw [if_pos hbc, if_pos hbc]
      · rw [if_neg hbc, if_neg hbc]
        exact ih

lemma mem_setPage {ps : List (Nat × PageRec)} {a : Nat} {r : PageRec}
    {e : Nat × PageRec} (h : e ∈ setPage ps a r) : e ∈ ps ∨ e = (a, r) := by
  induction ps with
  | nil => simp [setPage] at h
  | cons e0 rest ih =>
    obtain ⟨b, r0⟩ := e0
    rw [setPage] at h
    by_cases hab : a = b
    · rw [if_pos hab] at h
      rcases List.mem_cons.mp h with h | h
      · right
        subst hab
        exact h
      · left
        exact List.mem_cons_of_mem _ h
    · rw [if_neg hab] at h
      rcases List.mem_cons.mp h with h | h
      · left
        rw [h]
        exact List.mem_cons_self _ _
      · rcases ih h with h' | h'
        · left
          exact List.mem_cons_of_mem _ h'
        · right
          exact h'

lemma keys_setPage (ps : List (Nat × PageRec)) (a : Nat) (r : PageRec) :
    (setPage ps a r).map Prod.fst = ps.map Prod.fst := by
  induction ps with
  | nil => rfl
  | cons e rest ih =>
    obtain ⟨b, r0⟩ := e
    rw [setPage]
    by_cases hab : a = b
    · rw [if_pos hab]
      simp
    · rw [if_neg hab]
      simp [ih]

lemma getD_set_self (l : List (Option Nat)) (i : Nat) (v : Option Nat)
    (h : i < l.length) : (l.set i v).getD i none = v := by
  induction l generalizing i with
  | nil => simp at h
  | cons x xs ih =>
    cases i with
    | zero => rfl
    | succ i =>
      rw [show (x :: xs).set (i + 1) v = x :: xs.set i v from rfl,
        List.getD_cons_succ]
      refine ih i ?_
      simp at h
      omega

lemma getD_set_ne (l : List (Option Nat)) (i j : Nat) (v : Option Nat)
    (h : j ≠ i) : (l.set i v).getD j none = l.getD j none := by
  induction l generalizing i j with
  | nil => rfl
  | cons x xs ih =>
    cases i with
    | zero =>
      cases j with
      | zero => omega
      | succ j => rfl
    | succ i =>
      cases j with
      | zero => rfl
      | succ j =>
        rw [show (x :: xs).set (i + 1) v = x :: xs.set i v from rfl,
          List.getD_cons_succ, List.getD_cons_succ]
        exact ih i j (by omega)

lemma getD_replicate_none (k i : Nat) :
    (List.replicate k (none : Option Nat)).getD i none = none := by
  induction k generalizing i with
  | zero => rfl
  | succ k ih =>
    cases i with
    | zero => rfl
    | succ i =>
      rw [show List.replicate (k + 1) (none : Option Nat) =
        none :: List.replicate k none from rfl, List.getD_cons_succ]
      exact ih i

/-! ### Lemmas about the freelist construction loop -/

lemma buildFreelist_append (fuel : Nat) : ∀ base off size acc,
    buildFreelist fuel base off size acc =
      buildFreelist fuel base off size [] ++ acc := by
  induction fuel with
  | zero => intro base off size acc; rfl
  | succ fuel ih =>
    intro base off size acc
    rw [buildFreelist, buildFreelist]
    by_cases h : off < PAGE_SIZE
    · rw [if_pos h, if_pos h, ih base (off + size) size ((base + off) :: acc),
        ih base (off + size) size [base + off]]
      simp
    · rw [if_neg h, if_neg h]
      simp

lemma buildFreelist_mem (fuel : Nat) : ∀ base off size q,
    q ∈ buildFreelist fuel base off size [] →
    ∃ k, q = base + (off + k * size) ∧ off + k * size < PAGE_SIZE := by
  induction fuel with
  | zero => intro base off size q h; simp [buildFreelist] at h
  | succ fuel ih =>
    intro base off size q h
    rw [buildFreelist] at h
    by_cases hoff : off < PAGE_SIZE
    · rw [if_pos hoff, buildFreelist_append] at h
      rcases List.mem_append.mp h with h' | h'
      · obtain ⟨k, hk1, hk2⟩ := ih base (off + size) size q h'
        refine ⟨k + 1, ?_, ?_⟩
        · rw [hk1]; ring_nf
        · have : off + size + k * size = off + (k + 1) * size := by ring
          omega
      · simp at h'
        exact ⟨0, by omega, by omega⟩
    · rw [if_neg hoff] at h
      simp at h

lemma buildFreelist_ne_nil (fuel base off size : Nat) (hf : 0 < fuel)
    (ho : off < PAGE_SIZE) : buildFreelist fuel base off size [] ≠ [] := by
  obtain ⟨fuel', rfl⟩ : ∃ f, fuel = f + 1 := ⟨fuel - 1, by omega⟩
  rw [buildFreelist, if_pos ho, buildFreelist_append]
  simp

lemma buildFreelist_length_base (fuel : Nat) : ∀ base off size,
    (buildFreelist fuel base off size []).length =
      (buildFreelist fuel 0 off size []).length := by
  induction fuel with
  | zero => intro base off size; rfl
  | succ fuel ih =>
    intro base off size
    rw [buildFreelist, buildFreelist]
    by_cases h : off < PAGE_SIZE
    · rw [if_pos h, if_pos h,
        buildFreelist_append fuel base (off + size) size ((base + off) :: []),
        buildFreelist_append fuel 0 (off + size) size ((0 + off) :: [])]
      simp [ih base (off + size) size]
    · rw [if_neg h, if_neg h]

/-! ### Size-class facts -/

/-- Block sizes of owned pages are exactly the powers of two `2^4 .. 2^11`. -/
lemma size_class_cases {size : Nat} (h16 : 16 ≤ size) (h2048 : size ≤ 2048)
    (hdvd : size ∣ PAGE_SIZE) : ∃ j, 4 ≤ j ∧ j ≤ 11 ∧ size = 2 ^ j := by
  have hp : (PAGE_SIZE : Nat) = 2 ^ 12 := by norm_num [PAGE_SIZE]
  rw [hp] at hdvd
  obtain ⟨j, hj, rfl⟩ := (Nat.dvd_prime_pow Nat.prime_two).mp hdvd
  refine ⟨j, ?_, ?_, rfl⟩
  · by_contra hc
    push_neg at hc
    have h4 : (2:Nat) ^ j ≤ 2 ^ 3 := Nat.pow_le_pow_right (by omega) (by omega)
    norm_num at h4
    omega
  · by_contra hc
    push_neg at hc
    have h4 : (2:Nat) ^ 12 ≤ 2 ^ j := Nat.pow_le_pow_right (by omega) (by omega)
    norm_num at h4
    omega

lemma ROUND_UP_HEADER_le {size : Nat} (h16 : 16 ≤ size) (h2048 : size ≤ 2048)
    (hdvd : size ∣ PAGE_SIZE) : ROUND_UP HEADER_SIZE size ≤ 2048 := by
  obtain ⟨j, hj4, hj11, rfl⟩ := size_class_cases h16 h2048 hdvd
  interval_cases j <;> decide

/-- A block-size-aligned address is never `MAP_FAILED` (`2^64 - 1` is
coprime to every block size). -/
lemma aligned_ne_MAP_FAILED {size q : Nat} (h16 : 16 ≤ size)
    (hdvd : size ∣ PAGE_SIZE) (hq : q % size = 0) : q ≠ MAP_FAILED := by
  intro he
  have h1 : size ∣ q := Nat.dvd_of_mod_eq_zero hq
  rw [he] at h1
  have h4 : size ∣ W64 := by
    refine dvd_trans hdvd ⟨2 ^ 52, ?_⟩
    norm_num [PAGE_SIZE, W64]
  have h5 : size ∣ W64 - MAP_FAILED := Nat.dvd_sub' h4 h1
  have h6 : W64 - MAP_FAILED = 1 := by norm_num [W64, MAP_FAILED]
  rw [h6] at h5
  have := Nat.le_of_dvd (by omega) h5
  omega

/-! ### Preservation lemmas -/

lemma PageWF_mono {fresh fresh' a : Nat} {pg : PageRec} (h : PageWF fresh a pg)
    (hle : fresh ≤ fresh') : PageWF fresh' a pg := by
  obtain ⟨h1, h2, h3, h4⟩ := h
  exact ⟨h1, h2, by omega, h4⟩

/-- Extracting the data behind a `false` bootstrap test. -/
lemma needsBootstrap_false {s : AllocState} {i : Nat}
    (h : needsBootstrap s i = false) :
    ∃ a pg q rest, s.blockPtrs.getD i none = some a ∧
      getPage s.pages a = some pg ∧ pg.freelist = q :: rest := by
  unfold needsBootstrap at h
  cases hbp : s.blockPtrs.getD i none with
  | none => simp only [hbp] at h; simp at h
  | some a =>
    simp only [hbp] at h
    cases hgp : getPage s.pages a with
    | none => simp only [hgp] at h; simp at h
    | some pg =>
      simp only [hgp] at h
      cases hfl : pg.freelist with
      | nil => simp only [hfl] at h; simp at h
      | cons q rest => exact ⟨a, pg, q, rest, rfl, hgp, hfl⟩

/-- `popBlock` on a class whose page has a nonempty freelist pops the head
and only rewrites that page's freelist (plus the `in_malloc` flag). -/
lemma popBlock_eq {s : AllocState} {i a : Nat} {pg : PageRec} {q : Nat}
    {rest : List Nat} (hbp : s.blockPtrs.getD i none = some a)
    (hgp : getPage s.pages a = some pg) (hfl : pg.freelist = q :: rest)
    (hq : q ≠ MAP_FAILED) :
    popBlock s i = (MResult.ptr q,
      { s with pages := setPage s.pages a { pg with freelist := rest },
               in_malloc := false }) := by
  unfold popBlock
  simp only [hbp, hgp, hfl, if_neg hq]

/-- Replacing a recorded page's freelist with one whose nodes satisfy the
node conditions preserves well-formedness (for any setting of the two guard
flags). -/
lemma setPage_WF {s : AllocState} {a : Nat} {pg : PageRec}
    (hWF : StateWF s) (hgp : getPage s.pages a = some pg) (fl : List Nat)
    (hnodes : ∀ q ∈ fl,
      q % pg.size = 0 ∧ a + ROUND_UP HEADER_SIZE pg.size ≤ q ∧ q < a + PAGE_SIZE) :
    ∀ b1 b2 : Bool,
      StateWF { s with pages := setPage s.pages a { pg with freelist := fl },
                       in_malloc := b1, use_emergency_block := b2 } := by
  intro b1 b2
  obtain ⟨h1, h2, h3, h4, h5⟩ := hWF
  refine ⟨h1, h2, h3, ?_, ?_⟩
  · intro e he
    rcases mem_setPage he with he' | he'
    · exact h4 e he'
    · subst he'
      obtain ⟨ha0, haP, haF, hmagic, h16, h2048, hdvd, hnodes0⟩ :=
        h4 (a, pg) (getPage_mem hgp)
      exact ⟨ha0, haP, haF, hmagic, h16, h2048, hdvd, hnodes⟩
  · intro i a' hbp
    obtain ⟨pg', hg', hsz'⟩ := h5 i a' hbp
    by_cases haa : a' = a
    · subst haa
      refine ⟨{ pg with freelist := fl },
        getPage_setPage_self { pg with freelist := fl } hg', ?_⟩
      rw [hg'] at hgp
      injection hgp with hgp
      show pg.size = 2 ^ (i + 4)
      rw [← hgp]
      exact hsz'
    · exact ⟨pg', by
        rw [getPage_setPage_ne { pg with freelist := fl } haa]; exact hg', hsz'⟩

/-- Every node of a freshly bootstrapped page satisfies the node
conditions. -/
lemma bootstrapPage_nodes {base size : Nat} {prior : Option Nat}
    (h16 : 16 ≤ size) (h2048 : size ≤ 2048) (hdvd : size ∣ PAGE_SIZE)
    (hbase : base % PAGE_SIZE = 0) :
    ∀ q ∈ (bootstrapPage base size prior).freelist,
      q % size = 0 ∧ base + ROUND_UP HEADER_SIZE size ≤ q ∧ q < base + PAGE_SIZE := by
  intro q hq
  obtain ⟨k, hk1, hk2⟩ :=
    buildFreelist_mem PAGE_SIZE base (ROUND_UP HEADER_SIZE size) size q hq
  have hsz0 : 0 < size := by omega
  have hdb : size ∣ base :=
    dvd_trans hdvd (Nat.dvd_of_mod_eq_zero hbase)
  have hdru : size ∣ ROUND_UP HEADER_SIZE size :=
    Nat.dvd_of_mod_eq_zero (ROUND_UP_mod HEADER_SIZE size hsz0)
  refine ⟨?_, by omega, by omega⟩
  rw [hk1]
  have hsum : size ∣ (base + (ROUND_UP HEADER_SIZE size + k * size)) :=
    Nat.dvd_add hdb (Nat.dvd_add hdru (Nat.dvd_mul_left size k))
  obtain ⟨c, hc⟩ := hsum
  rw [hc, Nat.mul_mod_right]

lemma bootstrapPage_freelist_ne_nil {size : Nat} (base : Nat)
    (prior : Option Nat) (h16 : 16 ≤ size) (h2048 : size ≤ 2048)
    (hdvd : size ∣ PAGE_SIZE) :
    (bootstrapPage base size prior).freelist ≠ [] := by
  apply buildFreelist_ne_nil
  · norm_num [PAGE_SIZE]
  · have := ROUND_UP_HEADER_le h16 h2048 hdvd
    have hps : (PAGE_SIZE : Nat) = 4096 := by norm_num [PAGE_SIZE]
    omega

lemma pow_class_bounds {lg : Nat} (h4 : 4 ≤ lg) (h11 : lg ≤ 11) :
    16 ≤ 2 ^ lg ∧ 2 ^ lg ≤ 2048 ∧ (2 ^ lg : Nat) ∣ PAGE_SIZE := by
  refine ⟨?_, ?_, ?_⟩
  · calc (16:Nat) = 2 ^ 4 := by norm_num
    _ ≤ 2 ^ lg := Nat.pow_le_pow_right (by omega) h4
  · calc (2:Nat) ^ lg ≤ 2 ^ 11 := Nat.pow_le_pow_right (by omega) h11
    _ = 2048 := by norm_num
  · have hp : (PAGE_SIZE:Nat) = 2 ^ 12 := by norm_num [PAGE_SIZE]
    rw [hp]
    exact Nat.pow_dvd_pow 2 (by omega)

/-- After a bootstrap for class `lg - 4` (block size `2^lg`), the state is
well-formed, the table entry points at the new page, and its record is the
bootstrapped header. -/
lemma addPage_facts {s : AllocState} {lg : Nat} (hWF : StateWF s)
    (h4 : 4 ≤ lg) (h11 : lg ≤ 11) :
    StateWF (addPage { s with fresh := s.fresh + PAGE_SIZE } s.fresh (2 ^ lg) (lg - 4)) ∧
    (addPage { s with fresh := s.fresh + PAGE_SIZE } s.fresh (2 ^ lg)
      (lg - 4)).blockPtrs.getD (lg - 4) none = some s.fresh ∧
    getPage (addPage { s with fresh := s.fresh + PAGE_SIZE } s.fresh (2 ^ lg)
      (lg - 4)).pages s.fresh =
      some (bootstrapPage s.fresh (2 ^ lg) (s.blockPtrs.getD (lg - 4) none)) := by
  obtain ⟨h1, h2, h3, h4p, h5⟩ := hWF
  obtain ⟨hs16, hs2048, hsdvd⟩ := pow_class_bounds h4 h11
  have hP : (0:Nat) < PAGE_SIZE := by norm_num [PAGE_SIZE]
  have hgd : (addPage { s with fresh := s.fresh + PAGE_SIZE } s.fresh (2 ^ lg)
      (lg - 4)).blockPtrs.getD (lg - 4) none = some s.fresh := by
    show (s.blockPtrs.set (lg - 4) (some s.fresh)).getD (lg - 4) none = some s.fresh
    exact getD_set_self s.blockPtrs (lg - 4) (some s.fresh) (by omega)
  have hgp : getPage (addPage { s with fresh := s.fresh + PAGE_SIZE } s.fresh (2 ^ lg)
      (lg - 4)).pages s.fresh =
      some (bootstrapPage s.fresh (2 ^ lg) (s.blockPtrs.getD (lg - 4) none)) := by
    show getPage ((s.fresh, bootstrapPage s.fresh (2 ^ lg)
      (s.blockPtrs.getD (lg - 4) none)) :: s.pages) s.fresh = _
    rw [getPage, if_pos rfl]
  refine ⟨⟨?_, ?_, ?_, ?_, ?_⟩, hgd, hgp⟩
  · show (s.blockPtrs.set (lg - 4) (some s.fresh)).length = 8
    rw [List.length_set]
    exact h1
  · show (s.fresh + PAGE_SIZE) % PAGE_SIZE = 0
    rw [Nat.add_mod_right]
    exact h2
  · show 0 < s.fresh + PAGE_SIZE
    omega
  · intro e he
    have hfreq : (addPage { s with fresh := s.fresh + PAGE_SIZE } s.fresh (2 ^ lg)
        (lg - 4)).fresh = s.fresh + PAGE_SIZE := rfl
    rcases List.mem_cons.mp he with he' | he'
    · subst he'
      refine ⟨by omega, h2, by rw [hfreq], rfl, hs16, hs2048, hsdvd, ?_⟩
      exact bootstrapPage_nodes hs16 hs2048 hsdvd h2
    · exact PageWF_mono (h4p e he') (by rw [hfreq]; omega)
  · intro i a' hbp'
    by_cases hi : i = lg - 4
    · subst hi
      rw [hgd] at hbp'
      injection hbp' with hbp'
      subst hbp'
      refine ⟨bootstrapPage s.fresh (2 ^ lg) (s.blockPtrs.getD (lg - 4) none),
        hgp, ?_⟩
      show (2:Nat) ^ lg = 2 ^ (lg - 4 + 4)
      rw [show lg - 4 + 4 = lg by omega]
    · have hbp'' : s.blockPtrs.getD i none = some a' := by
        rw [← getD_set_ne s.blockPtrs (lg - 4) i (some s.fresh) hi]
        exact hbp'
      obtain ⟨pg', hg', hsz'⟩ := h5 i a' hbp''
      have hane : a' ≠ s.fresh := by
        obtain ⟨_, _, hfr, _⟩ := h4p (a', pg') (getPage_mem hg')
        omega
      refine ⟨pg', ?_, hsz'⟩
      show getPage ((s.fresh, _) :: s.pages) a' = some pg'
      rw [getPage, if_neg hane]
      exact hg'

/-! ### Control-flow lemmas for xxmalloc -/

lemma ctz_MIN : ctz MIN_MALLOC_SIZE = 4 := by decide

lemma xxmalloc_to_smallPath (ok : Bool) {s : AllocState} {n : Nat}
    (hEm : s.use_emergency_block = false) (hIn : s.in_malloc = false)
    (h1 : 1 ≤ n) (h2 : n ≤ 2048) :
    xxmalloc ok n s =
      smallPath ok (if n < MIN_MALLOC_SIZE then MIN_MALLOC_SIZE else n)
        { s with in_malloc := true } := by
  unfold xxmalloc
  rw [if_neg (show ¬ n = 0 by omega), hEm, hIn]
  simp only [Bool.false_eq_true, if_false]
  rw [if_neg ?_]
  unfold MIN_MALLOC_SIZE
  split <;> omega

lemma xxmalloc_to_largePath (ok : Bool) {s : AllocState} {n : Nat}
    (hEm : s.use_emergency_block = false) (hIn : s.in_malloc = false)
    (h : 2048 < n) :
    xxmalloc ok n s = largePath ok n { s with in_malloc := true } := by
  unfold xxmalloc
  rw [if_neg (show ¬ n = 0 by omega), hEm, hIn]
  simp only [Bool.false_eq_true, if_false]
  rw [if_neg (show ¬ n < MIN_MALLOC_SIZE by unfold MIN_MALLOC_SIZE; omega),
    if_pos h]

lemma smallPath_pop (ok : Bool) {t : AllocState} {size1 : Nat}
    (hnb : needsBootstrap t (computeLog2 size1 - 4) = false) :
    smallPath ok size1 t = popBlock t (computeLog2 size1 - 4) := by
  simp only [smallPath, ctz_MIN, hnb, Bool.false_eq_true, if_false]

lemma smallPath_bootstrap {t : AllocState} {size1 : Nat}
    (hnb : needsBootstrap t (computeLog2 size1 - 4) = true)
    (hfr : t.fresh ≠ MAP_FAILED) :
    smallPath true size1 t =
      popBlock (addPage { t with fresh := t.fresh + PAGE_SIZE } t.fresh
        (2 ^ computeLog2 size1) (computeLog2 size1 - 4))
        (computeLog2 size1 - 4) := by
  have hmm : mmapResult true PAGE_SIZE t =
      (t.fresh, { t with fresh := t.fresh + PAGE_SIZE }) := by
    unfold mmapResult
    rw [if_pos ⟨rfl, by norm_num [PAGE_SIZE]⟩]
  simp only [smallPath, ctz_MIN, hnb, if_true, hmm, if_neg hfr]

/-! ### The size-class allocation workhorse -/

/-- Postcondition of a successful size-class allocation of `n` bytes
returning `p`: the class table points at a well-formed magic page of block
size `2 ^ log2(clamped n)` that contains `p`, `p` is block-aligned at or
beyond the header region, the guard flags are clear again, and the state is
well-formed. -/
def SmallPost (n p : Nat) (s' : AllocState) : Prop :=
  ∃ a pg,
    s'.blockPtrs.getD
      (computeLog2 (if n < MIN_MALLOC_SIZE then MIN_MALLOC_SIZE else n) - 4) none =
        some a ∧
    getPage s'.pages a = some pg ∧
    pg.magicNum = MAGIC ∧
    pg.size = 2 ^ computeLog2 (if n < MIN_MALLOC_SIZE then MIN_MALLOC_SIZE else n) ∧
    a % PAGE_SIZE = 0 ∧
    p % pg.size = 0 ∧
    a + ROUND_UP HEADER_SIZE pg.size ≤ p ∧
    p < a + PAGE_SIZE ∧
    ROUND_DOWN p PAGE_SIZE = a ∧
    s'.in_malloc = false ∧
    s'.use_emergency_block = false ∧
    StateWF s'

lemma xxmalloc_small_spec (s : AllocState) (n : Nat) (hWF : StateWF s)
    (hEm : s.use_emergency_block = false) (hIn : s.in_malloc = false)
    (h1 : 1 ≤ n) (h2 : n ≤ 2048) :
    ∃ p s', xxmalloc true n s = (MResult.ptr p, s') ∧ SmallPost n p s' := by
  have hA : 16 ≤ (if n < MIN_MALLOC_SIZE then MIN_MALLOC_SIZE else n) := by
    unfold MIN_MALLOC_SIZE; split <;> omega
  have hB : (if n < MIN_MALLOC_SIZE then MIN_MALLOC_SIZE else n) ≤ 2048 := by
    unfold MIN_MALLOC_SIZE; split <;> omega
  obtain ⟨hlg4, hlg11, hlgA, hlgB⟩ := computeLog2_spec _ hA hB
  have hP : (0:Nat) < PAGE_SIZE := by norm_num [PAGE_SIZE]
  have hflow := xxmalloc_to_smallPath true hEm hIn h1 h2
  have hWFt : StateWF { s with in_malloc := true } := hWF
  have hL := hWFt.1
  have hF0 := hWFt.2.1
  have hFpos := hWFt.2.2.1
  have hPages := hWFt.2.2.2.1
  have hTable := hWFt.2.2.2.2
  by_cases hnb : needsBootstrap { s with in_malloc := true }
      (computeLog2 (if n < MIN_MALLOC_SIZE then MIN_MALLOC_SIZE else n) - 4) = true
  · -- bootstrap path
    have hfrMF : ({ s with in_malloc := true } : AllocState).fresh ≠ MAP_FAILED := by
      intro he
      have hmf : MAP_FAILED % PAGE_SIZE = 4095 := by decide
      rw [he] at hF0
      omega
    have hbs := smallPath_bootstrap hnb hfrMF
    obtain ⟨hWF2, hgd2, hgp2⟩ :=
      @addPage_facts { s with in_malloc := true }
        (computeLog2 (if n < MIN_MALLOC_SIZE then MIN_MALLOC_SIZE else n))
        hWFt hlg4 hlg11
    obtain ⟨hs16, hs2048, hsdvd⟩ := pow_class_bounds hlg4 hlg11
    have hnn := @bootstrapPage_freelist_ne_nil
      (2 ^ computeLog2 (if n < MIN_MALLOC_SIZE then MIN_MALLOC_SIZE else n))
      s.fresh (s.blockPtrs.getD
        (computeLog2 (if n < MIN_MALLOC_SIZE then MIN_MALLOC_SIZE else n) - 4) none)
      hs16 hs2048 hsdvd
    have hnodes := @bootstrapPage_nodes s.fresh
      (2 ^ computeLog2 (if n < MIN_MALLOC_SIZE then MIN_MALLOC_SIZE else n))
      (s.blockPtrs.getD
        (computeLog2 (if n < MIN_MALLOC_SIZE then MIN_MALLOC_SIZE else n) - 4) none)
      hs16 hs2048 hsdvd hF0
    cases hfl2 : (bootstrapPage s.fresh
        (2 ^ computeLog2 (if n < MIN_MALLOC_SIZE then MIN_MALLOC_SIZE else n))
        (s.blockPtrs.getD
          (computeLog2 (if n < MIN_MALLOC_SIZE then MIN_MALLOC_SIZE else n) - 4)
          none)).freelist with
    | nil => exact absurd hfl2 hnn
    | cons q rest =>
      have hqmem : q ∈ (bootstrapPage s.fresh
          (2 ^ computeLog2 (if n < MIN_MALLOC_SIZE then MIN_MALLOC_SIZE else n))
          (s.blockPtrs.getD
            (computeLog2 (if n < MIN_MALLOC_SIZE then MIN_MALLOC_SIZE else n) - 4)
            none)).freelist := by
        rw [hfl2]
        exact List.mem_cons_self _ _
      obtain ⟨hqal, hqlo, hqhi⟩ := hnodes q hqmem
      have hqMF : q ≠ MAP_FAILED := aligned_ne_MAP_FAILED hs16 hsdvd hqal
      have hpop := popBlock_eq hgd2 hgp2 hfl2 hqMF
      have hgoal := hflow.trans (hbs.trans hpop)
      refine ⟨q, _, hgoal, ?_⟩
      · refine ⟨s.fresh, _, hgd2, getPage_setPage_self _ hgp2, rfl, rfl, hF0,
          hqal, hqlo, hqhi, ?_, rfl, hEm, ?_⟩
        · exact ROUND_DOWN_base PAGE_SIZE s.fresh q hP
            (Nat.dvd_of_mod_eq_zero hF0) (by omega) hqhi
        · refine setPage_WF hWF2 hgp2 rest ?_ false _
          intro q' hq'
          refine hnodes q' ?_
          rw [hfl2]
          exact List.mem_cons_of_mem _ hq'
  · -- pop from the existing page
    have hnb' : needsBootstrap { s with in_malloc := true }
        (computeLog2 (if n < MIN_MALLOC_SIZE then MIN_MALLOC_SIZE else n) - 4)
        = false := by
      revert hnb
      cases needsBootstrap { s with in_malloc := true }
        (computeLog2 (if n < MIN_MALLOC_SIZE then MIN_MALLOC_SIZE else n) - 4) <;>
        simp
    obtain ⟨a, pg, q, rest, hbp, hgp, hfl⟩ := needsBootstrap_false hnb'
    obtain ⟨pg0, hg0, hsz0⟩ := hTable _ a hbp
    rw [hgp] at hg0
    injection hg0 with hg0
    subst hg0
    rw [show computeLog2 (if n < MIN_MALLOC_SIZE then MIN_MALLOC_SIZE else n) - 4 + 4
      = computeLog2 (if n < MIN_MALLOC_SIZE then MIN_MALLOC_SIZE else n)
      by omega] at hsz0
    obtain ⟨ha0, haP, haF, hmag, h16, h2048, hdvd, hnodes⟩ :=
      hPages (a, pg) (getPage_mem hgp)
    have hqmem : q ∈ pg.freelist := by
      rw [hfl]
      exact List.mem_cons_self _ _
    obtain ⟨hqal, hqlo, hqhi⟩ := hnodes q hqmem
    have hqMF : q ≠ MAP_FAILED := aligned_ne_MAP_FAILED h16 hdvd hqal
    have hpop := popBlock_eq hbp hgp hfl hqMF
    have hgoal := hflow.trans ((smallPath_pop true hnb').trans hpop)
    refine ⟨q, _, hgoal, ?_⟩
    · refine ⟨a, { pg with freelist := rest }, hbp, getPage_setPage_self _ hgp,
        hmag, hsz0, haP, hqal, hqlo, hqhi, ?_, rfl, hEm, ?_⟩
      · exact ROUND_DOWN_base PAGE_SIZE a q hP
          (Nat.dvd_of_mod_eq_zero haP) (by omega) hqhi
      · refine setPage_WF hWFt hgp rest ?_ false _
        intro q' hq'
        refine hnodes q' ?_
        rw [hfl]
        exact List.mem_cons_of_mem _ hq'

/-! ### Remaining operation-level equations and preservation lemmas -/

lemma initState_WF : StateWF initState := by
  refine ⟨rfl, by norm_num [initState, PAGE_SIZE], by norm_num [initState, PAGE_SIZE],
    ?_, ?_⟩
  · intro e he
    simp [initState] at he
  · intro i a hbp
    rw [show (initState.blockPtrs) = List.replicate 8 none from rfl,
      getD_replicate_none] at hbp
    exact absurd hbp (by simp)

lemma xxmalloc_emergency_eq (ok : Bool) (n : Nat) (s : AllocState)
    (hEm : s.use_emergency_block = true) (hn : n ≠ 0) :
    xxmalloc ok n s = (MResult.ptr emergency_block, s) := by
  unfold xxmalloc
  rw [if_neg hn, hEm]
  simp

lemma xxmalloc_nested_eq (ok : Bool) (n : Nat) (s : AllocState)
    (hEm : s.use_emergency_block = false) (hIn : s.in_malloc = true) (hn : n ≠ 0) :
    xxmalloc ok n s = (MResult.loopForever, { s with use_emergency_block := true }) := by
  unfold xxmalloc
  rw [if_neg hn, hEm, hIn]
  simp

lemma smallPath_nok_bootstrap {t : AllocState} {size1 : Nat}
    (hnb : needsBootstrap t (computeLog2 size1 - 4) = true) :
    smallPath false size1 t = (MResult.fault, t) := by
  have hmm : mmapResult false PAGE_SIZE t = (MAP_FAILED, t) := by
    unfold mmapResult
    rw [if_neg (by simp)]
  simp only [smallPath, ctz_MIN, hnb, if_true, hmm, if_pos rfl]

lemma largePath_eq_ok (size1 : Nat) (t : AllocState)
    (h : ROUND_UP size1 PAGE_SIZE % W64 ≠ 0) :
    largePath true size1 t = (MResult.ptr t.fresh,
      { t with fresh := t.fresh + ROUND_UP size1 PAGE_SIZE % W64,
               in_malloc := false }) := by
  simp only [largePath, mmapResult]
  rw [if_pos (show True ∧ ROUND_UP size1 PAGE_SIZE % W64 ≠ 0 from ⟨trivial, h⟩)]

lemma largePath_eq_fail (ok : Bool) (size1 : Nat) (t : AllocState)
    (h : ¬ (ok = true ∧ ROUND_UP size1 PAGE_SIZE % W64 ≠ 0)) :
    largePath ok size1 t =
      (MResult.ptr MAP_FAILED, { t with in_malloc := false }) := by
  simp only [largePath, mmapResult]
  rw [if_neg h]

lemma largePath_WF (ok : Bool) (size1 : Nat) (t : AllocState) (hWF : StateWF t) :
    StateWF (largePath ok size1 t).2 := by
  obtain ⟨h1, h2, h3, h4, h5⟩ := hWF
  by_cases h : ok = true ∧ ROUND_UP size1 PAGE_SIZE % W64 ≠ 0
  · obtain ⟨hok, hlen0⟩ := h
    subst hok
    rw [largePath_eq_ok size1 t hlen0]
    have hP : (0:Nat) < PAGE_SIZE := by norm_num [PAGE_SIZE]
    have hlen : ROUND_UP size1 PAGE_SIZE % W64 % PAGE_SIZE = 0 := by
      have hdvd : (PAGE_SIZE:Nat) ∣ W64 := by
        refine ⟨2 ^ 52, ?_⟩
        norm_num [PAGE_SIZE, W64]
      rw [Nat.mod_mod_of_dvd _ hdvd]
      exact ROUND_UP_mod size1 PAGE_SIZE hP
    refine ⟨h1, ?_, ?_, ?_, h5⟩
    · show (t.fresh + ROUND_UP size1 PAGE_SIZE % W64) % PAGE_SIZE = 0
      rw [Nat.add_mod, h2, hlen]
      simp
    · show 0 < t.fresh + ROUND_UP size1 PAGE_SIZE % W64
      omega
    · intro e he
      refine PageWF_mono (h4 e he) ?_
      show t.fresh ≤ t.fresh + ROUND_UP size1 PAGE_SIZE % W64
      omega
  · rw [largePath_eq_fail ok size1 t h]
    exact ⟨h1, h2, h3, h4, h5⟩

lemma popBlock_bp_none {s : AllocState} {i : Nat}
    (hbp : s.blockPtrs.getD i none = none) :
    popBlock s i = (MResult.fault, s) := by
  unfold popBlock
  simp only [hbp]

lemma popBlock_gp_none {s : AllocState} {i a : Nat}
    (hbp : s.blockPtrs.getD i none = some a)
    (hgp : getPage s.pages a = none) :
    popBlock s i = (MResult.fault, s) := by
  unfold popBlock
  simp only [hbp, hgp]

lemma popBlock_nil {s : AllocState} {i a : Nat} {pg : PageRec}
    (hbp : s.blockPtrs.getD i none = some a)
    (hgp : getPage s.pages a = some pg) (hfl : pg.freelist = []) :
    popBlock s i = (MResult.fault, s) := by
  unfold popBlock
  simp only [hbp, hgp, hfl]

lemma popBlock_eq_fatal {s : AllocState} {i a : Nat} {pg : PageRec} {q : Nat}
    {rest : List Nat} (hbp : s.blockPtrs.getD i none = some a)
    (hgp : getPage s.pages a = some pg) (hfl : pg.freelist = q :: rest)
    (hq : q = MAP_FAILED) :
    popBlock s i = (MResult.fatalExit 2,
      { s with pages := setPage s.pages a { pg with freelist := rest },
               use_emergency_block := true }) := by
  unfold popBlock
  simp only [hbp, hgp, hfl, if_pos hq]

lemma popBlock_WF (s : AllocState) (i : Nat) (hWF : StateWF s) :
    StateWF (popBlock s i).2 := by
  cases hbp : s.blockPtrs.getD i none with
  | none =>
    rw [popBlock_bp_none hbp]
    exact hWF
  | some a =>
    cases hgp : getPage s.pages a with
    | none =>
      rw [popBlock_gp_none hbp hgp]
      exact hWF
    | some pg =>
      cases hfl : pg.freelist with
      | nil =>
        rw [popBlock_nil hbp hgp hfl]
        exact hWF
      | cons q rest =>
        have hnodes : ∀ x ∈ rest,
            x % pg.size = 0 ∧ a + ROUND_UP HEADER_SIZE pg.size ≤ x ∧
              x < a + PAGE_SIZE := by
          intro x hx
          have hPW := hWF.2.2.2.1 (a, pg) (getPage_mem hgp)
          dsimp only at hPW
          obtain ⟨_, _, _, _, _, _, _, hn⟩ := hPW
          refine hn x ?_
          rw [hfl]
          exact List.mem_cons_of_mem _ hx
        by_cases hqm : q = MAP_FAILED
        · rw [popBlock_eq_fatal hbp hgp hfl hqm]
          exact setPage_WF hWF hgp rest hnodes s.in_malloc true
        · rw [popBlock_eq hbp hgp hfl hqm]
          exact setPage_WF hWF hgp rest hnodes false s.use_emergency_block

/-- The allocator invariant is preserved by `xxmalloc`, for every request
size and whether or not the page source succeeds. -/
lemma xxmalloc_WF (ok : Bool) (n : Nat) (s : AllocState) (hWF : StateWF s) :
    StateWF (xxmalloc ok n s).2 := by
  by_cases hn : n = 0
  · subst hn
    rw [show xxmalloc ok 0 s = (MResult.ptr NULL, s) from by unfold xxmalloc; rw [if_pos rfl]]
    exact hWF
  by_cases hEm : s.use_emergency_block = true
  · rw [xxmalloc_emergency_eq ok n s hEm hn]
    exact hWF
  have hEm' : s.use_emergency_block = false := by
    revert hEm
    cases s.use_emergency_block <;> simp
  by_cases hIn : s.in_malloc = true
  · rw [xxmalloc_nested_eq ok n s hEm' hIn hn]
    exact hWF
  have hIn' : s.in_malloc = false := by
    revert hIn
    cases s.in_malloc <;> simp
  by_cases hbig : 2048 < n
  · rw [xxmalloc_to_largePath ok hEm' hIn' hbig]
    exact largePath_WF ok n { s with in_malloc := true } hWF
  · have h2 : n ≤ 2048 := by omega
    cases ok with
    | true =>
      obtain ⟨p, s', heq, hpost⟩ :=
        xxmalloc_small_spec s n hWF hEm' hIn' (by omega) h2
      rw [heq]
      obtain ⟨a, pg, _, _, _, _, _, _, _, _, _, _, _, hWF'⟩ := hpost
      exact hWF'
    | false =>
      rw [xxmalloc_to_smallPath false hEm' hIn' (by omega) h2]
      by_cases hnb : needsBootstrap { s with in_malloc := true }
          (computeLog2 (if n < MIN_MALLOC_SIZE then MIN_MALLOC_SIZE else n) - 4) = true
      · rw [smallPath_nok_bootstrap hnb]
        exact hWF
      · have hnb' : needsBootstrap { s with in_malloc := true }
            (computeLog2 (if n < MIN_MALLOC_SIZE then MIN_MALLOC_SIZE else n) - 4)
            = false := by
          revert hnb
          cases needsBootstrap { s with in_malloc := true }
            (computeLog2 (if n < MIN_MALLOC_SIZE then MIN_MALLOC_SIZE else n) - 4) <;>
            simp
        rw [smallPath_pop false hnb']
        exact popBlock_WF { s with in_malloc := true } _ hWF

/-! ### Equations for the usable-size query and free -/

lemma usable_size_null (s : AllocState) : xxmalloc_usable_size s NULL = 0 := by
  unfold xxmalloc_usable_size
  rw [if_pos rfl]

lemma usable_size_magic {s : AllocState} {ptr : Nat} {pg : PageRec}
    (hptr : ptr ≠ NULL) (hgp : getPage s.pages (ROUND_DOWN ptr PAGE_SIZE) = some pg)
    (hmag : pg.magicNum = MAGIC) : xxmalloc_usable_size s ptr = pg.size := by
  unfold xxmalloc_usable_size
  rw [if_neg hptr]
  simp only [hgp]
  rw [if_neg (by rw [hmag]; simp)]

lemma usable_size_nonmagic {s : AllocState} {ptr : Nat} {pg : PageRec}
    (hptr : ptr ≠ NULL) (hgp : getPage s.pages (ROUND_DOWN ptr PAGE_SIZE) = some pg)
    (hmag : pg.magicNum ≠ MAGIC) : xxmalloc_usable_size s ptr = PAGE_SIZE := by
  unfold xxmalloc_usable_size
  rw [if_neg hptr]
  simp only [hgp]
  rw [if_pos hmag]

lemma usable_size_none {s : AllocState} {ptr : Nat}
    (hptr : ptr ≠ NULL) (hgp : getPage s.pages (ROUND_DOWN ptr PAGE_SIZE) = none) :
    xxmalloc_usable_size s ptr = PAGE_SIZE := by
  unfold xxmalloc_usable_size
  rw [if_neg hptr]
  simp only [hgp]

lemma xxfree_null (s : AllocState) : xxfree s NULL = s := by
  unfold xxfree
  rw [if_pos rfl]

lemma xxfree_none {s : AllocState} {ptr : Nat} (hptr : ptr ≠ NULL)
    (hgp : getPage s.pages (ROUND_DOWN ptr PAGE_SIZE) = none) :
    xxfree s ptr = s := by
  unfold xxfree
  rw [if_neg hptr]
  simp only [hgp]

lemma xxfree_nonmagic {s : AllocState} {ptr : Nat} {pg : PageRec}
    (hptr : ptr ≠ NULL) (hgp : getPage s.pages (ROUND_DOWN ptr PAGE_SIZE) = some pg)
    (hmag : pg.magicNum ≠ MAGIC) : xxfree s ptr = s := by
  unfold xxfree
  rw [if_neg hptr]
  simp only [hgp]
  rw [if_pos hmag]

lemma xxfree_push {s : AllocState} {ptr : Nat} {pg : PageRec}
    (hptr : ptr ≠ NULL) (hgp : getPage s.pages (ROUND_DOWN ptr PAGE_SIZE) = some pg)
    (hmag : pg.magicNum = MAGIC) :
    xxfree s ptr = { s with pages := setPage s.pages (ROUND_DOWN ptr PAGE_SIZE) { pg with freelist := ROUND_DOWN ptr pg.size :: pg.freelist } } := by
  unfold xxfree
  rw [if_neg hptr]
  simp only [hgp]
  rw [if_neg (by rw [hmag]; simp), usable_size_magic hptr hgp hmag]

/-- The allocator invariant is preserved by `xxfree` whenever the freed
pointer lies at or beyond the first block of its page, in case that page is
a recognized size-classed page (the contract of free: a pointer somewhere
inside an object previously returned by allocation). -/
lemma xxfree_WF (s : AllocState) (ptr : Nat) (hWF : StateWF s)
    (hdata : ∀ pg, getPage s.pages (ROUND_DOWN ptr PAGE_SIZE) = some pg →
      pg.magicNum = MAGIC →
      ROUND_DOWN ptr PAGE_SIZE + ROUND_UP HEADER_SIZE pg.size ≤ ptr) :
    StateWF (xxfree s ptr) := by
  by_cases hptr : ptr = NULL
  · rw [hptr, xxfree_null]
    exact hWF
  cases hgp : getPage s.pages (ROUND_DOWN ptr PAGE_SIZE) with
  | none =>
    rw [xxfree_none hptr hgp]
    exact hWF
  | some pg =>
    by_cases hmag : pg.magicNum = MAGIC
    · rw [xxfree_push hptr hgp hmag]
      have hPW := hWF.2.2.2.1 (ROUND_DOWN ptr PAGE_SIZE, pg) (getPage_mem hgp)
      dsimp only at hPW
      obtain ⟨ha0, haP, haF, hmagic, h16, h2048, hdvd, hnodes⟩ := hPW
      have hP : (0:Nat) < PAGE_SIZE := by norm_num [PAGE_SIZE]
      have hup := hdata pg hgp hmag
      have hnodes' : ∀ x ∈ ROUND_DOWN ptr pg.size :: pg.freelist,
          x % pg.size = 0 ∧
          ROUND_DOWN ptr PAGE_SIZE + ROUND_UP HEADER_SIZE pg.size ≤ x ∧
          x < ROUND_DOWN ptr PAGE_SIZE + PAGE_SIZE := by
        intro x hx
        rcases List.mem_cons.mp hx with hx | hx
        · subst hx
          refine ⟨ROUND_DOWN_mod ptr pg.size, ?_, ?_⟩
          · refine le_ROUND_DOWN _ ptr pg.size (by omega) ?_ hup
            refine Nat.dvd_add ?_
              (Nat.dvd_of_mod_eq_zero (ROUND_UP_mod HEADER_SIZE pg.size (by omega)))
            exact dvd_trans hdvd (Nat.dvd_of_mod_eq_zero haP)
          · have hle := ROUND_DOWN_le ptr pg.size
            have hlt := lt_ROUND_DOWN_add ptr PAGE_SIZE hP
            omega
        · exact hnodes x hx
      exact setPage_WF hWF hgp _ hnodes' s.in_malloc s.use_emergency_block
    · rw [xxfree_nonmagic hptr hgp hmag]
      exact hWF

/-- The specification's freelist invariant follows from state
well-formedness. -/
lemma StateWF_FreelistInv {s : AllocState} (hWF : StateWF s) : FreelistInv s := by
  intro e he q hq
  obtain ⟨ha0, haP, haF, hmag, h16, h2048, hdvd, hnodes⟩ := hWF.2.2.2.1 e he
  obtain ⟨hqal, hqlo, hqhi⟩ := hnodes q hq
  have hda : e.2.size ∣ e.1 := dvd_trans hdvd (Nat.dvd_of_mod_eq_zero haP)
  have hru : (0:Nat) ≤ ROUND_UP HEADER_SIZE e.2.size := Nat.zero_le _
  refine ⟨by omega, ?_, by omega, by omega⟩
  obtain ⟨c, hc⟩ := Nat.dvd_sub' (Nat.dvd_of_mod_eq_zero hqal) hda
  rw [hc, Nat.mul_mod_right]

/-! ### Claim theorems -/

/-- Claim C1: for every requested size `n` with `1 ≤ n ≤ 2048`, issued from
a well-formed state in normal operation, `xxmalloc` returns a non-null
pointer whose `xxmalloc_usable_size` is a power of two that is at least
`max 16 n` and at most `2 * max 16 n`. -/
theorem C1_small_alloc_usable_size (s : AllocState) (n : Nat)
    (hWF : StateWF s) (hEm : s.use_emergency_block = false)
    (hIn : s.in_malloc = false) (h1 : 1 ≤ n) (h2 : n ≤ 2048) :
    ∃ p s', xxmalloc true n s = (MResult.ptr p, s') ∧ p ≠ NULL ∧
      (∃ k, xxmalloc_usable_size s' p = 2 ^ k) ∧
      max 16 n ≤ xxmalloc_usable_size s' p ∧
      xxmalloc_usable_size s' p ≤ 2 * max 16 n := by
  obtain ⟨p, s', heq, hpost⟩ := xxmalloc_small_spec s n hWF hEm hIn h1 h2
  obtain ⟨a, pg, hbp, hgp, hmag, hsz, haP, hal, hlo, hhi, hrd, hinm, hemg, hWF'⟩ :=
    hpost
  have hmax : (if n < MIN_MALLOC_SIZE then MIN_MALLOC_SIZE else n) = max 16 n := by
    unfold MIN_MALLOC_SIZE
    split <;> omega
  obtain ⟨hlg4, hlg11, hlgA, hlgB⟩ :=
    computeLog2_spec (max 16 n) (le_max_left _ _) (by omega)
  have hH : (HEADER_SIZE : Nat) = 32 := rfl
  have h32 : HEADER_SIZE ≤ ROUND_UP HEADER_SIZE pg.size :=
    le_ROUND_UP HEADER_SIZE pg.size
  have hp0 : p ≠ NULL := by
    unfold NULL
    omega
  have husz : xxmalloc_usable_size s' p = pg.size :=
    usable_size_magic hp0 (by rw [hrd]; exact hgp) hmag
  rw [hsz, hmax] at husz
  exact ⟨p, s', heq, hp0, ⟨_, husz⟩, by omega, by omega⟩

/-- Claim C1 witness: a concrete allocation of 5 bytes from the initial
state. -/
theorem C1_witness :
    ∃ p s', xxmalloc true 5 initState = (MResult.ptr p, s') ∧ p ≠ NULL ∧
      (∃ k, xxmalloc_usable_size s' p = 2 ^ k) ∧
      max 16 5 ≤ xxmalloc_usable_size s' p ∧
      xxmalloc_usable_size s' p ≤ 2 * max 16 5 :=
  C1_small_alloc_usable_size initState 5 initState_WF rfl rfl (by omega) (by omega)

/-- Claim C2: the claim says a failing page-mapping request makes the
allocator terminate fatally with a diagnostic instead of handing the caller
a null or invalid pointer.  The code's error check sits after the freelist
pop and the large path has none at all, so a failing `mmap` on the large
path hands `MAP_FAILED` (`(void*)-1`, a non-null invalid pointer) straight
back to the caller with no diagnostic and no `exit`: evaluating
`xxmalloc(3000)` with a failing page source returns `MAP_FAILED` and leaves
the state untouched. -/
theorem C2_mmap_failure_returns_MAP_FAILED :
    xxmalloc false 3000 initState = (MResult.ptr MAP_FAILED, initState) ∧
    MAP_FAILED ≠ NULL ∧
    (∀ c, (xxmalloc false 3000 initState).1 ≠ MResult.fatalExit c) := by
  refine ⟨by decide, by decide, ?_⟩
  intro c
  rw [show xxmalloc false 3000 initState = (MResult.ptr MAP_FAILED, initState)
    from by decide]
  simp

/-- Claim C3: a request that is an exact power of two `2^j` in class range
is mapped by the size-class computation to the block size `2^j` itself (and
to index `j - 4`), not the next power up; in particular `allocate(64)`
returns a block of usable size exactly 64. -/
theorem C3_exact_powers_not_rounded (j : Nat) (h4 : 4 ≤ j) (h11 : j ≤ 11) :
    computeLog2 (2 ^ j) = j ∧
    2 ^ computeLog2 (2 ^ j) = 2 ^ j ∧
    computeLog2 (2 ^ j) - ctz MIN_MALLOC_SIZE = j - 4 ∧
    ∀ s : AllocState, StateWF s → s.use_emergency_block = false →
      s.in_malloc = false →
      ∃ p s', xxmalloc true 64 s = (MResult.ptr p, s') ∧
        xxmalloc_usable_size s' p = 64 := by
  refine ⟨computeLog2_pow j h4 h11, by rw [computeLog2_pow j h4 h11],
    by rw [computeLog2_pow j h4 h11, ctz_MIN], ?_⟩
  intro s hWF hEm hIn
  obtain ⟨p, s', heq, hpost⟩ :=
    xxmalloc_small_spec s 64 hWF hEm hIn (by omega) (by omega)
  obtain ⟨a, pg, hbp, hgp, hmag, hsz, haP, hal, hlo, hhi, hrd, hinm, hemg, hWF'⟩ :=
    hpost
  have hH : (HEADER_SIZE : Nat) = 32 := rfl
  have h32 : HEADER_SIZE ≤ ROUND_UP HEADER_SIZE pg.size :=
    le_ROUND_UP HEADER_SIZE pg.size
  have hp0 : p ≠ NULL := by
    unfold NULL
    omega
  have husz : xxmalloc_usable_size s' p = pg.size :=
    usable_size_magic hp0 (by rw [hrd]; exact hgp) hmag
  rw [hsz] at husz
  have h64 : (2:Nat) ^
      computeLog2 (if 64 < MIN_MALLOC_SIZE then MIN_MALLOC_SIZE else 64) = 64 := by
    decide
  rw [h64] at husz
  exact ⟨p, s', heq, husz⟩

/-- Claim C3 witness: the class of 64 itself, and a concrete `allocate(64)`
from the initial state. -/
theorem C3_witness :
    computeLog2 (2 ^ 6) = 6 ∧
    (∃ p s', xxmalloc true 64 initState = (MResult.ptr p, s') ∧
      xxmalloc_usable_size s' p = 64) :=
  ⟨(C3_exact_powers_not_rounded 6 (by omega) (by omega)).1,
    (C3_exact_powers_not_rounded 6 (by omega) (by omega)).2.2.2 initState
      initState_WF rfl rfl⟩

/-- Claim C4 counterexample: the claim as stated is false on the code in
its worked example: `allocate(2049)` rounds 2049 up to ONE page (4096
bytes), not two pages (8192 bytes).  Also, for `n` within a page of
`2^64`, the size_t `ROUND_UP` wraps to 0 and the large path returns
`MAP_FAILED` instead of a page-aligned region backing `n` bytes. -/
theorem C4_counterexample :
    ROUND_UP 2049 PAGE_SIZE = PAGE_SIZE ∧
    xxmalloc true 2049 initState =
      (MResult.ptr PAGE_SIZE, { initState with fresh := PAGE_SIZE + PAGE_SIZE }) ∧
    ROUND_UP (W64 - 1) PAGE_SIZE % W64 = 0 ∧
    (xxmalloc true (W64 - 1) initState).1 = MResult.ptr MAP_FAILED ∧
    MAP_FAILED % PAGE_SIZE ≠ 0 := by
  refine ⟨by decide, by decide, by decide, by decide, by decide⟩

/-- Claim C4 (amended): for every request `n` with
`2048 < n ≤ 2^64 - 4096` (so that rounding up to whole pages does not
overflow size_t), issued from a well-formed state in normal operation,
`xxmalloc` takes the large-object path: it rounds `n` up to a whole number
of pages, obtains that region from the page source, and returns the
region's page-aligned non-null base address, with the region backing at
least `n` bytes; in particular `allocate(2049)` obtains a one-page
(4096-byte) region. -/
theorem C4_large_path (s : AllocState) (n : Nat) (hWF : StateWF s)
    (hEm : s.use_emergency_block = false) (hIn : s.in_malloc = false)
    (hlo : 2048 < n) (hhi : n ≤ W64 - PAGE_SIZE) :
    xxmalloc true n s =
      (MResult.ptr s.fresh,
        { s with fresh := s.fresh + ROUND_UP n PAGE_SIZE, in_malloc := false }) ∧
    s.fresh ≠ NULL ∧ s.fresh % PAGE_SIZE = 0 ∧
    n ≤ ROUND_UP n PAGE_SIZE ∧ ROUND_UP n PAGE_SIZE % PAGE_SIZE = 0 ∧
    ROUND_UP 2049 PAGE_SIZE = PAGE_SIZE := by
  have hP : (0:Nat) < PAGE_SIZE := by norm_num [PAGE_SIZE]
  have hPW : (PAGE_SIZE:Nat) ∣ W64 - PAGE_SIZE :=
    ⟨2 ^ 52 - 1, by norm_num [PAGE_SIZE, W64]⟩
  have hru_le : ROUND_UP n PAGE_SIZE ≤ W64 - PAGE_SIZE :=
    ROUND_UP_le n _ PAGE_SIZE hP hPW hhi
  have hWlt : (PAGE_SIZE:Nat) < W64 := by norm_num [PAGE_SIZE, W64]
  have hnw : ROUND_UP n PAGE_SIZE % W64 = ROUND_UP n PAGE_SIZE :=
    Nat.mod_eq_of_lt (by omega)
  have hge := le_ROUND_UP n PAGE_SIZE
  have hne : ROUND_UP n PAGE_SIZE % W64 ≠ 0 := by
    rw [hnw]
    omega
  refine ⟨?_, ?_, hWF.2.1, hge, ROUND_UP_mod n PAGE_SIZE hP, by decide⟩
  · rw [xxmalloc_to_largePath true hEm hIn hlo, largePath_eq_ok n _ hne, hnw]
  · have := hWF.2.2.1
    unfold NULL
    omega

/-- Claim C4 witness: a concrete large allocation of 5000 bytes from the
initial state. -/
theorem C4_witness :
    xxmalloc true 5000 initState =
      (MResult.ptr initState.fresh,
        { initState with fresh := initState.fresh + ROUND_UP 5000 PAGE_SIZE,
                         in_malloc := false }) ∧
    initState.fresh ≠ NULL ∧ initState.fresh % PAGE_SIZE = 0 ∧
    5000 ≤ ROUND_UP 5000 PAGE_SIZE ∧
    ROUND_UP 5000 PAGE_SIZE % PAGE_SIZE = 0 ∧
    ROUND_UP 2049 PAGE_SIZE = PAGE_SIZE :=
  C4_large_path initState 5000 initState_WF rfl rfl (by omega)
    (by norm_num [W64, PAGE_SIZE])

/-- Claim C5: after bootstrapping a fresh page for class block size `s`
(a power of two with `16 ≤ s ≤ 2048`), the number of blocks linked into the
page's freelist is `(PAGE_SIZE - header_region_rounded_to(s)) / s`, the
header region being `HEADER_SIZE` rounded up to the next multiple of
`s`. -/
theorem C5_bootstrap_block_count (base bs : Nat) (prior : Option Nat)
    (hpow : ∃ j, bs = 2 ^ j) (h16 : 16 ≤ bs) (h2048 : bs ≤ 2048) :
    (bootstrapPage base bs prior).freelist.length =
      (PAGE_SIZE - ROUND_UP HEADER_SIZE bs) / bs := by
  obtain ⟨j, rfl⟩ := hpow
  have h4 : 4 ≤ j := by
    by_contra h
    push_neg at h
    have hj : (2:Nat) ^ j ≤ 2 ^ 3 := Nat.pow_le_pow_right (by omega) (by omega)
    norm_num at hj
    omega
  have h11 : j ≤ 11 := by
    by_contra h
    push_neg at h
    have hj : (2:Nat) ^ 12 ≤ 2 ^ j := Nat.pow_le_pow_right (by omega) (by omega)
    norm_num at hj
    omega
  show (buildFreelist PAGE_SIZE base (ROUND_UP HEADER_SIZE (2 ^ j)) (2 ^ j)
    []).length = _
  rw [buildFreelist_length_base]
  interval_cases j <;> decide

/-- Claim C5 witness: a fresh page for the 16-byte class carries
`(4096 - 32) / 16 = 254` blocks. -/
theorem C5_witness :
    (bootstrapPage PAGE_SIZE 16 none).freelist.length =
      (PAGE_SIZE - ROUND_UP HEADER_SIZE 16) / 16 :=
  C5_bootstrap_block_count PAGE_SIZE 16 none ⟨4, rfl⟩ (by omega) (by omega)

/-- Claim C6: round-trip reuse.  If a size-class allocation of `n` bytes
just returned `p`, then freeing `p` and immediately allocating `n` bytes
again returns the very same address `p`, popping it from the class's
freelist with no new page acquired (the page-source frontier and the set of
owned pages are unchanged by the free and the re-allocation). -/
theorem C6_free_then_alloc_returns_same (s : AllocState) (n p : Nat)
    (s1 : AllocState) (hWF : StateWF s) (hEm : s.use_emergency_block = false)
    (hIn : s.in_malloc = false) (h1 : 1 ≤ n) (h2 : n ≤ 2048)
    (halloc : xxmalloc true n s = (MResult.ptr p, s1)) :
    ∃ s2, xxmalloc true n (xxfree s1 p) = (MResult.ptr p, s2) ∧
      (xxfree s1 p).fresh = s1.fresh ∧ s2.fresh = s1.fresh ∧
      (xxfree s1 p).pages.map Prod.fst = s1.pages.map Prod.fst ∧
      s2.pages.map Prod.fst = s1.pages.map Prod.fst := by
  obtain ⟨p', s1', heq, hpost⟩ := xxmalloc_small_spec s n hWF hEm hIn h1 h2
  rw [halloc] at heq
  injection heq with heqa heqb
  injection heqa with heqa
  subst heqa
  subst heqb
  obtain ⟨a, pg, hbp, hgp, hmag, hsz, haP, hal, hlo, hhi, hrd, hinm, hemg, hWF1⟩ :=
    hpost
  have hH : (HEADER_SIZE : Nat) = 32 := rfl
  have h32 : HEADER_SIZE ≤ ROUND_UP HEADER_SIZE pg.size :=
    le_ROUND_UP HEADER_SIZE pg.size
  have hp0 : p ≠ NULL := by
    unfold NULL
    omega
  have hpp : ROUND_DOWN p pg.size = p := ROUND_DOWN_eq_self p pg.size hal
  have hfree : xxfree s1 p =
      { s1 with pages := setPage s1.pages a { pg with freelist := p :: pg.freelist } } := by
    have h0 := xxfree_push hp0
      (show getPage s1.pages (ROUND_DOWN p PAGE_SIZE) = some pg from by
        rw [hrd]; exact hgp) hmag
    rw [hrd, hpp] at h0
    exact h0
  have hPW := hWF1.2.2.2.1 (a, pg) (getPage_mem hgp)
  dsimp only at hPW
  obtain ⟨ha0, haP', haF, hmag', h16, h2048, hdvd, hnodes⟩ := hPW
  have hqMF : p ≠ MAP_FAILED := aligned_ne_MAP_FAILED h16 hdvd hal
  have hemF : (xxfree s1 p).use_emergency_block = false := by
    rw [hfree]
    exact hemg
  have hinF : (xxfree s1 p).in_malloc = false := by
    rw [hfree]
    exact hinm
  have hflow2 := @xxmalloc_to_smallPath true (xxfree s1 p) n hemF hinF h1 h2
  have hbpF : ({ xxfree s1 p with in_malloc := true } : AllocState).blockPtrs.getD
      (computeLog2 (if n < MIN_MALLOC_SIZE then MIN_MALLOC_SIZE else n) - 4) none =
      some a := by
    rw [hfree]
    exact hbp
  have hgpF : getPage ({ xxfree s1 p with in_malloc := true } : AllocState).pages a =
      some { pg with freelist := p :: pg.freelist } := by
    rw [hfree]
    exact getPage_setPage_self { pg with freelist := p :: pg.freelist } hgp
  have hnbF : needsBootstrap { xxfree s1 p with in_malloc := true }
      (computeLog2 (if n < MIN_MALLOC_SIZE then MIN_MALLOC_SIZE else n) - 4) =
      false := by
    unfold needsBootstrap
    simp only [hbpF, hgpF]
    rfl
  have hfl2 : ({ pg with freelist := p :: pg.freelist } : PageRec).freelist =
      p :: pg.freelist := rfl
  have hpop2 := popBlock_eq hbpF hgpF hfl2 hqMF
  have hgoal2 := hflow2.trans ((smallPath_pop true hnbF).trans hpop2)
  refine ⟨_, hgoal2, ?_, ?_, ?_, ?_⟩
  · rw [hfree]
  · show (xxfree s1 p).fresh = s1.fresh
    rw [hfree]
  · rw [hfree]
    exact keys_setPage s1.pages a { pg with freelist := p :: pg.freelist }
  · dsimp only
    rw [hfree]
    dsimp only
    rw [keys_setPage, keys_setPage]

/-- Claim C6 witness: allocate 16 bytes from the initial state (returning
address 8176 in the freshly bootstrapped page at 4096), free it, allocate
16 bytes again: the same address comes back with no new page acquired. -/
theorem C6_witness :
    ∃ s2, xxmalloc true 16
        (xxfree (xxmalloc true 16 initState).2 8176) = (MResult.ptr 8176, s2) ∧
      (xxfree (xxmalloc true 16 initState).2 8176).fresh =
        (xxmalloc true 16 initState).2.fresh ∧
      s2.fresh = (xxmalloc true 16 initState).2.fresh ∧
      (xxfree (xxmalloc true 16 initState).2 8176).pages.map Prod.fst =
        (xxmalloc true 16 initState).2.pages.map Prod.fst ∧
      s2.pages.map Prod.fst = (xxmalloc true 16 initState).2.pages.map Prod.fst :=
  C6_free_then_alloc_returns_same initState 16 8176 (xxmalloc true 16 initState).2
    initState_WF rfl rfl (by omega) (by omega) (by decide)

/-- Claim C7: the usable-size query returns 0 on null; on a pointer whose
enclosing page carries the validity marker it returns exactly that page's
block size; otherwise it returns the one-page fallback `PAGE_SIZE`
(4096 bytes). -/
theorem C7_usable_size_cases (s : AllocState) (ptr : Nat) :
    (ptr = NULL → xxmalloc_usable_size s ptr = 0) ∧
    (∀ pg, ptr ≠ NULL →
      getPage s.pages (ROUND_DOWN ptr PAGE_SIZE) = some pg →
      pg.magicNum = MAGIC → xxmalloc_usable_size s ptr = pg.size) ∧
    (∀ pg, ptr ≠ NULL →
      getPage s.pages (ROUND_DOWN ptr PAGE_SIZE) = some pg →
      pg.magicNum ≠ MAGIC → xxmalloc_usable_size s ptr = PAGE_SIZE) ∧
    (ptr ≠ NULL → getPage s.pages (ROUND_DOWN ptr PAGE_SIZE) = none →
      xxmalloc_usable_size s ptr = PAGE_SIZE) ∧
    PAGE_SIZE = 4096 := by
  refine ⟨?_, ?_, ?_, ?_, by norm_num [PAGE_SIZE]⟩
  · intro h
    rw [h]
    exact usable_size_null s
  · intro pg hp hg hm
    exact usable_size_magic hp hg hm
  · intro pg hp hg hm
    exact usable_size_nonmagic hp hg hm
  · intro hp hg
    exact usable_size_none hp hg

/-- Claim C7 witness: the three cases at concrete inputs: null, a pointer
into a recorded magic page of block size 16, and a pointer into unowned
memory. -/
theorem C7_witness :
    xxmalloc_usable_size initState NULL = 0 ∧
    xxmalloc_usable_size
      { initState with pages := [(PAGE_SIZE, ⟨MAGIC, 16, [], none⟩)] }
      (PAGE_SIZE + 40) = 16 ∧
    xxmalloc_usable_size initState 99 = PAGE_SIZE :=
  ⟨(C7_usable_size_cases initState NULL).1 rfl,
    (C7_usable_size_cases
      { initState with pages := [(PAGE_SIZE, ⟨MAGIC, 16, [], none⟩)] }
      (PAGE_SIZE + 40)).2.1 ⟨MAGIC, 16, [], none⟩ (by decide) (by decide) rfl,
    (C7_usable_size_cases initState 99).2.2.2.1 (by decide) (by decide)⟩

/-- Claim C8: `xxfree` is a no-op (the whole allocator state unchanged) on
null and on any pointer whose enclosing page does not carry the validity
marker; when the marker is present it pushes the start of the pointer's
block (the pointer rounded down to a multiple of the page's block size)
onto that page's freelist head and changes nothing else: the table, the
flags, the page-source frontier and every other page are untouched. -/
theorem C8_free_cases (s : AllocState) (ptr : Nat) :
    (ptr = NULL → xxfree s ptr = s) ∧
    (ptr ≠ NULL → getPage s.pages (ROUND_DOWN ptr PAGE_SIZE) = none →
      xxfree s ptr = s) ∧
    (∀ pg, ptr ≠ NULL →
      getPage s.pages (ROUND_DOWN ptr PAGE_SIZE) = some pg →
      pg.magicNum ≠ MAGIC → xxfree s ptr = s) ∧
    (∀ pg, ptr ≠ NULL →
      getPage s.pages (ROUND_DOWN ptr PAGE_SIZE) = some pg →
      pg.magicNum = MAGIC →
      (xxfree s ptr).pages = setPage s.pages (ROUND_DOWN ptr PAGE_SIZE) { pg with freelist := ROUND_DOWN ptr pg.size :: pg.freelist } ∧
      (xxfree s ptr).blockPtrs = s.blockPtrs ∧
      (xxfree s ptr).in_malloc = s.in_malloc ∧
      (xxfree s ptr).use_emergency_block = s.use_emergency_block ∧
      (xxfree s ptr).fresh = s.fresh ∧
      ∀ b, b ≠ ROUND_DOWN ptr PAGE_SIZE →
        getPage (xxfree s ptr).pages b = getPage s.pages b) := by
  refine ⟨?_, ?_, ?_, ?_⟩
  · intro h
    rw [h]
    exact xxfree_null s
  · intro hp hg
    exact xxfree_none hp hg
  · intro pg hp hg hm
    exact xxfree_nonmagic hp hg hm
  · intro pg hp hg hm
    rw [xxfree_push hp hg hm]
    refine ⟨rfl, rfl, rfl, rfl, rfl, ?_⟩
    intro b hb
    exact getPage_setPage_ne _ hb

/-- Claim C8 witness: freeing null is a no-op; freeing an unrecognized
pointer is a no-op; freeing a pointer into a recorded magic page pushes its
block start onto that page's freelist. -/
theorem C8_witness :
    xxfree initState NULL = initState ∧
    xxfree initState 99 = initState ∧
    (xxfree { initState with pages := [(PAGE_SIZE, ⟨MAGIC, 16, [], none⟩)] }
        (PAGE_SIZE + 40)).pages =
      setPage [(PAGE_SIZE, ⟨MAGIC, 16, [], none⟩)]
        (ROUND_DOWN (PAGE_SIZE + 40) PAGE_SIZE)
        { (⟨MAGIC, 16, [], none⟩ : PageRec) with
          freelist := ROUND_DOWN (PAGE_SIZE + 40) 16 :: [] } :=
  ⟨(C8_free_cases initState NULL).1 rfl,
    (C8_free_cases initState 99).2.1 (by decide) (by decide),
    ((C8_free_cases { initState with pages := [(PAGE_SIZE, ⟨MAGIC, 16, [], none⟩)] }
      (PAGE_SIZE + 40)).2.2.2 ⟨MAGIC, 16, [], none⟩ (by decide) (by decide) rfl).1⟩

/-- Claim C9: the freelist invariant — every node on any owned page's
freelist lies at an offset from the page base that is a multiple of that
page's block size and outside the header region — follows from state
well-formedness, is preserved by every allocation (any size, page source
succeeding or not) and by every release of a pointer lying in the data
region of its page (the contract of free), and consequently every pointer
the size-class path returns is block-size-aligned and strictly after the
header. -/
theorem C9_invariant_preserved :
    (∀ s : AllocState, StateWF s → FreelistInv s) ∧
    (∀ (ok : Bool) (n : Nat) (s : AllocState), StateWF s →
      StateWF (xxmalloc ok n s).2) ∧
    (∀ (s : AllocState) (ptr : Nat), StateWF s →
      (∀ pg, getPage s.pages (ROUND_DOWN ptr PAGE_SIZE) = some pg →
        pg.magicNum = MAGIC →
        ROUND_DOWN ptr PAGE_SIZE + ROUND_UP HEADER_SIZE pg.size ≤ ptr) →
      StateWF (xxfree s ptr)) ∧
    (∀ (s : AllocState) (n p : Nat) (s' : AllocState), StateWF s →
      s.use_emergency_block = false → s.in_malloc = false →
      1 ≤ n → n ≤ 2048 → xxmalloc true n s = (MResult.ptr p, s') →
      ∃ a pg, getPage s'.pages a = some pg ∧ pg.magicNum = MAGIC ∧
        a ≤ p ∧ (p - a) % pg.size = 0 ∧
        a + ROUND_UP HEADER_SIZE pg.size ≤ p ∧ p < a + PAGE_SIZE) := by
  refine ⟨fun s h => StateWF_FreelistInv h,
    fun ok n s h => xxmalloc_WF ok n s h,
    fun s ptr h hd => xxfree_WF s ptr h hd, ?_⟩
  intro s n p s' hWF hEm hIn h1 h2 halloc
  obtain ⟨p', s1', heq, hpost⟩ := xxmalloc_small_spec s n hWF hEm hIn h1 h2
  rw [halloc] at heq
  injection heq with heqa heqb
  injection heqa with heqa
  subst heqa
  subst heqb
  obtain ⟨a, pg, hbp, hgp, hmag, hsz, haP, hal, hlo, hhi, hrd, _, _, hWF'⟩ := hpost
  have hPW := hWF'.2.2.2.1 (a, pg) (getPage_mem hgp)
  dsimp only at hPW
  obtain ⟨ha0, haP', haF, hmag', h16, h2048, hdvd, hnodes⟩ := hPW
  refine ⟨a, pg, hgp, hmag, by omega, ?_, hlo, hhi⟩
  have hda : pg.size ∣ a := dvd_trans hdvd (Nat.dvd_of_mod_eq_zero haP)
  obtain ⟨c, hc⟩ := Nat.dvd_sub' (Nat.dvd_of_mod_eq_zero hal) hda
  rw [hc, Nat.mul_mod_right]

/-- Claim C9 witness: the invariant holds initially, is preserved by a
concrete allocation, and by a concrete (null) release. -/
theorem C9_witness :
    FreelistInv initState ∧
    StateWF (xxmalloc true 16 initState).2 ∧
    StateWF (xxfree initState NULL) ∧
    (∃ a pg, getPage (xxmalloc true 16 initState).2.pages a = some pg ∧
      pg.magicNum = MAGIC ∧ a ≤ 8176 ∧ (8176 - a) % pg.size = 0 ∧
      a + ROUND_UP HEADER_SIZE pg.size ≤ 8176 ∧ 8176 < a + PAGE_SIZE) :=
  ⟨C9_invariant_preserved.1 initState initState_WF,
    C9_invariant_preserved.2.1 true 16 initState initState_WF,
    C9_invariant_preserved.2.2.1 initState NULL initState_WF
      (fun pg hg _ => by simp [initState, getPage] at hg),
    C9_invariant_preserved.2.2.2 initState 16 8176 (xxmalloc true 16 initState).2
      initState_WF rfl rfl (by omega) (by omega) (by decide)⟩

/-- Claim C10: whenever the emergency flag is set, every call to `xxmalloc`
with any nonzero size — including sizes larger than the 1024-byte buffer —
returns the address of the same fixed static `emergency_block` without
consulting or modifying any allocator state. -/
theorem C10_emergency_returns_static_buffer (ok : Bool) (size : Nat)
    (s : AllocState) (hEm : s.use_emergency_block = true) (hsz : size ≠ 0) :
    xxmalloc ok size s = (MResult.ptr emergency_block, s) ∧
    emergency_block ≠ NULL :=
  ⟨xxmalloc_emergency_eq ok size s hEm hsz, by norm_num [emergency_block, NULL]⟩

/-- Claim C10 witness: a 2000-byte request (larger than the 1024-byte
buffer) still returns the emergency block, state unchanged. -/
theorem C10_witness :
    xxmalloc true 2000 { initState with use_emergency_block := true } =
      (MResult.ptr emergency_block,
        { initState with use_emergency_block := true }) ∧
    emergency_block ≠ NULL :=
  C10_emergency_returns_static_buffer true 2000
    { initState with use_emergency_block := true } rfl (by omega)

end Alloc
